import Mathlib

/-!
Verification of the vaccinated epidemic model sensitivity repository.

This file gives a shallow embedding, over the rationals, of the parts of the
repository that the checked properties are about:

* the sampler's R0 calibration and joint sorting step
  (`src/sampler_vaccinated.py`, `sampler_npi.py`);
* the numpy right-hand side of the ODE model and its helper functions
  (`src/model.py`: `get_transition_state_eq`, `get_n_state_val`,
  `VaccinatedModel.get_model`, `get_vacc_bool`, `update_initial_values`);
* the torch model and its bilinear-matrix backend
  (`src/model/model.py`: `VaccinatedModel.get_model`, `ModelEq` with the
  matrices `A`, `T`, `B` and the `forward` step).

Machine floats are modelled by `ℚ` (every float is a rational, and all the
operations involved are field operations), per-age vectors by `ℕ → ℚ`, and
flattened state vectors by `Fin N → ℚ` in the layout the code uses.
-/

/- ### Sampler: R0 calibration (src/sampler_vaccinated.py) -/

/-- `SamplerVaccinated.get_beta_0_boundaries` (src/sampler_vaccinated.py,
lines 70-77): `beta_0 = self.base_r0 / eig` where `eig` is the value returned
by `r0generator.get_eig_val` (the NGM spectral radius at `beta_0 = 1`). -/
def get_beta_0 (base_r0 eig : ℚ) : ℚ := base_r0 / eig

/-- `SamplerVaccinated.get_r0` (src/sampler_vaccinated.py, lines 50-56):
`r0_lhs = params[2] * eig` — the sampled `beta_0` entry (column 2) times the
NGM spectral radius at `beta_0 = 1`. -/
def get_r0_lhs (beta_0 eig : ℚ) : ℚ := beta_0 * eig

/- ### Vaccination gate (src/model.py lines 46-48, src/model/model.py lines 73-75) -/

/-- `VaccinatedModel.get_vacc_bool`:
`int(ps["t_start"] < ts < (ps["t_start"] + ps["T"]))` — note that both
comparisons are strict. -/
def get_vacc_bool (ts t_start T : ℚ) : ℚ :=
  if t_start < ts ∧ ts < t_start + T then 1 else 0

/- ### Erlang-chain transition equations (src/model.py lines 6-13) -/

/-- Per-age vectors are total functions on age-group indices. -/
abbrev AgeVec := ℕ → ℚ

def zeroVec : AgeVec := fun _ => 0

/-- `get_transition_state_eq(states, val, param)` (src/model.py, lines 6-13):
returns `None` when fewer than two states, otherwise the mapping sending
`states[idx]` (for `idx ≥ 1`) to `param * (val[idx-1] - val[idx])`.
The insertion order of the returned dict is modelled by a list of pairs. -/
def get_transition_state_eq (states : List String) (val : List AgeVec)
    (param : ℚ) : Option (List (String × AgeVec)) :=
  if states.length < 2 then none
  else some ((List.range (states.length - 1)).map (fun j =>
    (states.getD (j + 1) "",
     fun a => param * (val.getD j zeroVec a - val.getD (j + 1) zeroVec a))))

/- ### Theorems for the sampler calibration claim -/

/-- C2: calibration is an exact linear scaling — computing
`beta_0 = X / eig` with the spectral radius `eig` of the NGM at `beta_0 = 1`
and recomputing the reproduction number as the sampler does
(`beta_0 * eig`) gives back exactly `X`, in particular within `1e-6`
relative tolerance, for each target `X ∈ {1.1, 1.8, 2.4, 3.0}`. -/
theorem calibration_round_trip (X eig : ℚ) (heig : eig ≠ 0)
    (hX : X = 1.1 ∨ X = 1.8 ∨ X = 2.4 ∨ X = 3.0) :
    get_r0_lhs (get_beta_0 X eig) eig = X ∧
    |get_r0_lhs (get_beta_0 X eig) eig - X| ≤ (1 / 1000000) * |X| := by
  have hexact : get_r0_lhs (get_beta_0 X eig) eig = X :=
    div_mul_cancel₀ X heig
  refine ⟨hexact, ?_⟩
  rw [hexact]
  simp [abs_nonneg]

/-- Witness for `calibration_round_trip` at `X = 1.8`, `eig = 3`. -/
theorem calibration_round_trip_witness :
    (3 : ℚ) ≠ 0 ∧
    ((1.8 : ℚ) = 1.1 ∨ (1.8 : ℚ) = 1.8 ∨ (1.8 : ℚ) = 2.4 ∨ (1.8 : ℚ) = 3.0) ∧
    (get_r0_lhs (get_beta_0 1.8 3) 3 = 1.8 ∧
     |get_r0_lhs (get_beta_0 1.8 3) 3 - 1.8| ≤ (1 / 1000000) * |(1.8 : ℚ)|) :=
  ⟨by norm_num, by norm_num,
   calibration_round_trip 1.8 3 (by norm_num) (by norm_num)⟩

/- ### Theorems for the vaccination-gate claim -/

/-- C5 counterexample: at `ts` exactly equal to `t_start` (here `t_start = 5`,
`T = 10`) the gate returns `0`, although `t_start ≤ ts < t_start + T` holds,
where the claim asserts the value `1`. -/
theorem vacc_bool_boundary_counterexample :
    get_vacc_bool 5 5 10 = 0 ∧ (5 : ℚ) ≤ 5 ∧ (5 : ℚ) < 5 + 10 ∧ (0 : ℚ) ≠ 1 := by
  refine ⟨?_, by norm_num, by norm_num, by norm_num⟩
  simp [get_vacc_bool]

/-- C5 amended: the gate returns `1` exactly when `t_start < ts < t_start + T`
(both comparisons strict) and `0` otherwise; in particular it returns `0` at
`ts` exactly equal to `t_start`. -/
theorem vacc_bool_strict_window (ts t_start T : ℚ) :
    (get_vacc_bool ts t_start T = 1 ↔ (t_start < ts ∧ ts < t_start + T)) ∧
    (get_vacc_bool ts t_start T = 0 ↔ ¬(t_start < ts ∧ ts < t_start + T)) ∧
    get_vacc_bool t_start t_start T = 0 := by
  unfold get_vacc_bool
  refine ⟨?_, ?_, ?_⟩
  · split_ifs with h
    · simp [h]
    · simp [h]
  · split_ifs with h
    · simp [h]
    · simp [h]
  · simp

/- ### Theorems for the Erlang-chain equation claim -/

/-- C6 counterexample: for a two-stage chain (`k = 2`) with rate parameter
`param = 1` and stage values `3, 5`, the interior equation produced by
`get_transition_state_eq` evaluates to `1 * (3 - 5) = -2`, whereas the
claimed outflow rate `k × param = 2` would give `2 * (3 - 5) = -4`. -/
theorem transition_rate_counterexample :
    ((((get_transition_state_eq ["x_0", "x_1"]
        [fun _ => 3, fun _ => 5] 1).getD []).getD 0 ("", zeroVec)).2 0 = -2) ∧
    ((["x_0", "x_1"] : List String).length : ℚ) * 1 * ((3 : ℚ) - 5) = -4 ∧
    ((-2 : ℚ) ≠ -4) := by
  refine ⟨?_, by norm_num, by norm_num⟩
  norm_num [get_transition_state_eq, zeroVec]

/-- C6 amended: the outflow rate used in the chain equations is the rate
parameter itself (not multiplied by the stage count), and for every interior
sub-stage `j ≥ 1` the equation keyed by `states[j]` is
`param * (val[j-1] - val[j])`. -/
theorem transition_state_eq_spec (states : List String) (val : List AgeVec)
    (param : ℚ) (j : ℕ) (h1 : 0 < j) (h2 : j < states.length) :
    ((get_transition_state_eq states val param).getD []).getD (j - 1)
        ("", zeroVec) =
      (states.getD j "",
       fun a => param * (val.getD (j - 1) zeroVec a - val.getD j zeroVec a)) := by
  have hlen : ¬ states.length < 2 := by omega
  have hj : j - 1 < states.length - 1 := by omega
  have hj1 : j - 1 + 1 = j := by omega
  unfold get_transition_state_eq
  rw [if_neg hlen]
  have hmap := List.getElem?_map
    (fun j => ((states.getD (j + 1) "",
      fun a => param * (val.getD j zeroVec a - val.getD (j + 1) zeroVec a))
        : String × AgeVec))
    (List.range (states.length - 1)) (j - 1)
  have hrange : (List.range (states.length - 1))[j - 1]? = some (j - 1) :=
    List.getElem?_range hj
  rw [Option.getD_some, List.getD_eq_getElem?_getD, hmap, hrange]
  simp [hj1]

/-- Witness for `transition_state_eq_spec`: a two-stage chain with values
`3, 5` and rate `2`; the interior equation is keyed by `x_1` and evaluates to
`2 * (3 - 5)`. -/
theorem transition_state_eq_spec_witness :
    0 < 1 ∧ 1 < (["x_0", "x_1"] : List String).length ∧
    ((get_transition_state_eq ["x_0", "x_1"]
        [fun _ => 3, fun _ => 5] 2).getD []).getD 0 ("", zeroVec) =
      ((["x_0", "x_1"] : List String).getD 1 "",
       fun a => 2 * (([fun _ => 3, fun _ => 5] : List AgeVec).getD 0 zeroVec a
         - ([fun _ => 3, fun _ => 5] : List AgeVec).getD 1 zeroVec a)) :=
  ⟨by norm_num, by norm_num,
   transition_state_eq_spec ["x_0", "x_1"] [fun _ => 3, fun _ => 5] 2 1
     (by norm_num) (by norm_num)⟩

/- ### The numpy right-hand side (src/model.py) -/

/-- Sum of a list of per-age vectors, at age `a` (models `np.sum(..., axis=0)`
and the total of a compartment chain). -/
def vecListSum (l : List AgeVec) (a : ℕ) : ℚ := (l.map (fun f => f a)).sum

/-- `val[-1]`: the last element of a compartment chain. -/
def lastVal (l : List AgeVec) : AgeVec := l.getLast?.getD zeroVec

/-- The interior chain equations `param * (val[idx-1] - val[idx])` produced by
`get_transition_state_eq` (src/model.py, lines 6-13), as the list of
derivative vectors for stages `1, ..., k-1`. -/
def transDerivs (param : ℚ) : List AgeVec → List AgeVec
  | [] => []
  | [_] => []
  | x :: y :: rest => (fun a => param * (x a - y a)) :: transDerivs param (y :: rest)

/-- Derivatives of a full stage chain: the head equation
`inflow - param * val[0]` (e.g. `get_e_eq`, src/model.py lines 88-94)
followed by the interior equations of `get_transition_state_eq`. -/
def chainDerivs (param : ℚ) (inflow : AgeVec) (l : List AgeVec) : List AgeVec :=
  match l with
  | [] => []
  | x :: _ => (fun a => inflow a - param * x a) :: transDerivs param l

/-- Parameter set of the numpy model (src/model.py): scalar rates and
per-age vectors `susc`, `v` (daily vaccines) and the population. -/
structure NpParams where
  beta_0 : ℚ
  alpha : ℚ
  gamma : ℚ
  gamma_c : ℚ
  h : ℚ
  xi : ℚ
  mu : ℚ
  psi : ℚ
  rho : ℚ
  t_start : ℚ
  T : ℚ
  susc : AgeVec
  pop : AgeVec
  v : AgeVec

/-- State of the numpy model: scalar compartments `s`, `r`, `d` and the
stage chains `e`, `i`, `ic`, `v`, each a list of per-age vectors. -/
structure NpState where
  s : AgeVec
  r : AgeVec
  d : AgeVec
  e : List AgeVec
  i : List AgeVec
  ic : List AgeVec
  v : List AgeVec

/-- `transmission = ps["beta_0"] * np.array(i).dot(cm)` (src/model.py,
line 67), where `i` is the sum of the infected sub-stages. -/
def np_transmission (n_age : ℕ) (ps : NpParams) (cm : ℕ → ℕ → ℚ)
    (st : NpState) : AgeVec :=
  fun a => ps.beta_0 * ∑ b ∈ Finset.range n_age, vecListSum st.i b * cm b a

/-- `ps["susc"] * (s / actual_population) * transmission` (src/model.py,
lines 72 and 91). -/
def np_infection (ps : NpParams) (st : NpState) (transmission : AgeVec) :
    AgeVec :=
  fun a => ps.susc a * (st.s a / ps.pop a) * transmission a

/-- `ps["v"] * ps["rho"] * s / (s + r) * vacc` (src/model.py, lines 73
and 114). -/
def np_vacc_flow (ps : NpParams) (st : NpState) (vacc : ℚ) : AgeVec :=
  fun a => ps.v a * ps.rho * st.s a / (st.s a + st.r a) * vacc

/-- `VaccinatedModel.get_model` of the numpy model (src/model.py,
lines 59-116, with `get_e_eq`, `get_i_eq`, `get_ic_eq`, `get_v_eq`
inlined): the derivative of every compartment. -/
def np_get_model (n_age : ℕ) (ps : NpParams) (cm : ℕ → ℕ → ℚ) (ts : ℚ)
    (st : NpState) : NpState :=
  { s := fun a =>
      -(np_infection ps st (np_transmission n_age ps cm st)) a
      - np_vacc_flow ps st (get_vacc_bool ts ps.t_start ps.T) a
      + ps.psi * lastVal st.v a
    r := fun a =>
      (1 - ps.h * ps.xi) * ps.gamma * lastVal st.i a
      + (1 - ps.mu) * ps.gamma_c * lastVal st.ic a
    d := fun a => ps.mu * ps.gamma_c * lastVal st.ic a
    e := chainDerivs ps.alpha
      (np_infection ps st (np_transmission n_age ps cm st)) st.e
    i := chainDerivs ps.gamma (fun a => ps.alpha * lastVal st.e a) st.i
    ic := chainDerivs ps.gamma_c
      (fun a => ps.xi * ps.h * ps.gamma * lastVal st.i a) st.ic
    v := chainDerivs ps.psi
      (np_vacc_flow ps st (get_vacc_bool ts ps.t_start ps.T)) st.v }

/-- Sum of every entry of a numpy-model state (all compartments, all ages
`< n_age`). -/
def np_state_total (n_age : ℕ) (st : NpState) : ℚ :=
  ∑ a ∈ Finset.range n_age,
    (st.s a + st.r a + st.d a + vecListSum st.e a + vecListSum st.i a
      + vecListSum st.ic a + vecListSum st.v a)

theorem lastVal_cons_cons (x y : AgeVec) (l : List AgeVec) :
    lastVal (x :: y :: l) = lastVal (y :: l) := by
  simp [lastVal, List.getLast?_cons_cons]

theorem vecListSum_transDerivs (p : ℚ) (x : AgeVec) (l : List AgeVec)
    (a : ℕ) :
    vecListSum (transDerivs p (x :: l)) a = p * (x a - lastVal (x :: l) a) := by
  induction l generalizing x with
  | nil => simp [transDerivs, vecListSum, lastVal]
  | cons y rest ih =>
      rw [lastVal_cons_cons]
      have h := ih y
      simp only [transDerivs, vecListSum, List.map_cons, List.sum_cons] at h ⊢
      rw [h]
      ring

theorem vecListSum_chainDerivs (p : ℚ) (inflow : AgeVec) (x : AgeVec)
    (l : List AgeVec) (a : ℕ) :
    vecListSum (chainDerivs p inflow (x :: l)) a
      = inflow a - p * lastVal (x :: l) a := by
  have h := vecListSum_transDerivs p x l a
  simp only [chainDerivs, vecListSum, List.map_cons, List.sum_cons] at h ⊢
  rw [h]
  ring

/-- The numpy right-hand side conserves total mass unconditionally: the
entries of the derivative state sum to zero for every state, parameter set,
contact matrix and time (all four chains nonempty, as the code requires). -/
theorem np_get_model_total_deriv_zero (n_age : ℕ) (ps : NpParams)
    (cm : ℕ → ℕ → ℚ) (ts : ℚ) (st : NpState)
    (he : st.e ≠ []) (hi : st.i ≠ []) (hic : st.ic ≠ []) (hv : st.v ≠ []) :
    np_state_total n_age (np_get_model n_age ps cm ts st) = 0 := by
  obtain ⟨e0, etl, hee⟩ := List.exists_cons_of_ne_nil he
  obtain ⟨i0, itl, hii⟩ := List.exists_cons_of_ne_nil hi
  obtain ⟨ic0, ictl, hicc⟩ := List.exists_cons_of_ne_nil hic
  obtain ⟨v0, vtl, hvv⟩ := List.exists_cons_of_ne_nil hv
  unfold np_state_total
  apply Finset.sum_eq_zero
  intro a _
  simp only [np_get_model, hee, hii, hicc, hvv, vecListSum_chainDerivs]
  ring

/- ### Compartment layout of the numpy model (src/model.py lines 16-44) -/

/-- Compartment names. The stringly-typed names of the source
(`"s"`, `"r"`, `"d"`, `"e_0"`, ..., `"v_{k-1}"`) are modelled by a tagged
enumeration; the stage index is the numeric suffix of the name. -/
inductive CompName where
  | s : CompName
  | r : CompName
  | d : CompName
  | e : ℕ → CompName
  | i : ℕ → CompName
  | ic : ℕ → CompName
  | v : ℕ → CompName
deriving DecidableEq

/-- `VaccinatedModel.__init__` of the numpy model (src/model.py,
lines 28-33 with `get_n_compartments`): the compartment order is
`base_compartments = ["s", "r", "d"]` followed by the `e`, `i`, `ic`, `v`
chains. -/
def np_compartments (ne ni nic nv : ℕ) : List CompName :=
  [CompName.s, CompName.r, CompName.d]
    ++ (List.range ne).map CompName.e
    ++ (List.range ni).map CompName.i
    ++ (List.range nic).map CompName.ic
    ++ (List.range nv).map CompName.v

/-- Modelled from the spec: `EpidemicModelBase.__init__` (`model_base.py`,
not under `src/`) builds `c_idx`, the "ordered mapping from compartment name
to a contiguous integer index block" (spec section 3): each compartment name
is mapped to its position in the ordered compartment list. -/
def c_idx (comps : List CompName) (name : CompName) : ℕ := comps.indexOf name

/-- Result of `get_n_state_val` of the numpy model: the four stage chains. -/
structure NpStateVal where
  e : List AgeVec
  i : List AgeVec
  ic : List AgeVec
  v : List AgeVec

/-- `get_n_state_val(ps, val)` of the numpy model (src/model.py,
lines 16-25): slices the reshaped state rows starting at row 1, taking
`n_e`, `n_i`, `n_ic`, `n_v` consecutive rows for the chains `e, i, ic, v`. -/
def np_get_n_state_val (ne ni nic nv : ℕ) (val : List AgeVec) : NpStateVal :=
  { e := (val.drop 1).take ne
    i := (val.drop (1 + ne)).take ni
    ic := (val.drop (1 + ne + ni)).take nic
    v := (val.drop (1 + ne + ni + nic)).take nv }

/-- A concrete reshaped state for the layout check: row `k` is the constant
vector `10 * k`. -/
def layoutVal : List AgeVec :=
  [fun _ => 0, fun _ => 10, fun _ => 20, fun _ => 30, fun _ => 40,
   fun _ => 50, fun _ => 60]

/-- C9 failing evaluation: in the numpy model with one stage per chain, the
compartment order is `s, r, d, e_0, i_0, ic_0, v_0`, so `c_idx` assigns
`e_0` row 3 while `get_n_state_val` reads the `e` chain starting at row 1 —
the value the right-hand side uses for `e_0` is the row of compartment `r`
(value `10`), not the row of the block assigned to `e_0` (value `30`). -/
theorem np_layout_mismatch :
    c_idx (np_compartments 1 1 1 1) (CompName.e 0) = 3 ∧
    c_idx (np_compartments 1 1 1 1) CompName.r = 1 ∧
    ((np_get_n_state_val 1 1 1 1 layoutVal).e.getD 0 zeroVec) 0 = 10 ∧
    (layoutVal.getD (c_idx (np_compartments 1 1 1 1) (CompName.e 0)) zeroVec) 0 = 30 ∧
    (layoutVal.getD (c_idx (np_compartments 1 1 1 1) CompName.r) zeroVec) 0 = 10 ∧
    ((10 : ℚ) ≠ 30) := by
  refine ⟨by decide, by decide, by decide, by decide, by decide, by norm_num⟩

/- ### The torch model and its bilinear backend (src/model/model.py) -/

/-- Stage-count configuration of the torch model: number of age groups and
the stage counts `n_e, n_i, n_h, n_ic, n_icr, n_v` (`model.n_state_comp`
order: `e, i, h, ic, icr, v`). -/
structure ModelCfg where
  n_age : ℕ
  n_e : ℕ
  n_i : ℕ
  n_h : ℕ
  n_ic : ℕ
  n_icr : ℕ
  n_v : ℕ

/-- Within-age-block index of `e_0` (compartment order
`s, e_*, i_*, h_*, ic_*, icr_*, v_*, r, d`, src/model/model.py line 16). -/
def e0Idx (_ : ModelCfg) : ℕ := 1

def i0Idx (c : ModelCfg) : ℕ := 1 + c.n_e

def h0Idx (c : ModelCfg) : ℕ := 1 + c.n_e + c.n_i

def ic0Idx (c : ModelCfg) : ℕ := 1 + c.n_e + c.n_i + c.n_h

def icr0Idx (c : ModelCfg) : ℕ := 1 + c.n_e + c.n_i + c.n_h + c.n_ic

def v0Idx (c : ModelCfg) : ℕ := 1 + c.n_e + c.n_i + c.n_h + c.n_ic + c.n_icr

def rIdx (c : ModelCfg) : ℕ := v0Idx c + c.n_v

def dIdx (c : ModelCfg) : ℕ := rIdx c + 1

/-- `n_comp = len(model.compartments)`. -/
def nComp (c : ModelCfg) : ℕ := rIdx c + 2

/-- `s_mtx = n_age * n_comp` (src/model/model.py line 103). -/
def sMtx (c : ModelCfg) : ℕ := c.n_age * nComp c

/-- Parameter set of the torch model (src/model/model.py). -/
structure TorchParams where
  beta : ℚ
  alpha : ℚ
  gamma : ℚ
  gamma_h : ℚ
  gamma_c : ℚ
  gamma_cr : ℚ
  psi : ℚ
  xi : ℚ
  h : ℚ
  mu : ℚ
  rho : ℚ
  t_start : ℚ
  T : ℚ
  susc : AgeVec
  pop : AgeVec
  v : AgeVec

/-- Compartment index of a flat index: `ModelEq.get_diag_slice(comp)` is
`slice(c_idx[comp], s_mtx, n_comp)`, i.e. the flat indices with this value
of `% n_comp`. -/
def compOf (cfg : ModelCfg) (p : ℕ) : ℕ := p % nComp cfg

/-- Age group of a flat index in the `ModelEq` layout. -/
def ageOf (cfg : ModelCfg) (p : ℕ) : ℕ := p / nComp cfg

/-- Square matrices on the flattened state space (indices beyond
`s_mtx` are never consulted: all matrix-vector products below sum over
`Finset.range (sMtx cfg)`). -/
abbrev SqMat := ℕ → ℕ → ℚ

/-- `transmission_rate = ps["beta"] * ps["susc"] / self.model.population`
(src/model/model.py line 130). -/
def transmission_rate (ps : TorchParams) (a : ℕ) : ℚ :=
  ps.beta * ps.susc a / ps.pop a

/-- `ModelEq._get_A` (src/model/model.py lines 125-136): within each age
group, `A[s, s] = -transmission_rate` and `A[e_0, s] = transmission_rate`
on the diagonal of the corresponding blocks. -/
def Amtx (cfg : ModelCfg) (ps : TorchParams) : SqMat := fun p q =>
  if compOf cfg p = 0 ∧ compOf cfg q = 0 ∧ ageOf cfg p = ageOf cfg q then
    -transmission_rate ps (ageOf cfg p)
  else if compOf cfg p = e0Idx cfg ∧ compOf cfg q = 0
      ∧ ageOf cfg p = ageOf cfg q then
    transmission_rate ps (ageOf cfg p)
  else 0

/-- `T_r` of `ModelEq._get_transmission` (src/model/model.py lines 139-144):
`T_r[idx : n_age * n_i : n_i, diag_slice(i_state)] = cm`, so row
`a * n_i + k` holds `cm[a, b]` at the column of `i_k` of age `b`. -/
def TrMat (cfg : ModelCfg) (cm : ℕ → ℕ → ℚ) : SqMat := fun m q =>
  if compOf cfg q = i0Idx cfg + m % cfg.n_i then
    cm (m / cfg.n_i) (ageOf cfg q)
  else 0

/-- `T_l` of `ModelEq._get_transmission` (src/model/model.py lines 146-151):
for each infected state index `idx`,
`T_l[diag_slice('s'), idx:n_age*n_i][diag_idx] = 1` (and likewise for
`e_0`), i.e. row `s` (or `e_0`) of age `a` has ones at the columns
`idx + a` for `idx < n_i`. -/
def TlMat (cfg : ModelCfg) : SqMat := fun p m =>
  if (compOf cfg p = 0 ∨ compOf cfg p = e0Idx cfg)
      ∧ ageOf cfg p ≤ m ∧ m < ageOf cfg p + cfg.n_i then 1
  else 0

/-- `self.T = T_l @ T_r` (src/model/model.py line 152). -/
def Tmtx (cfg : ModelCfg) (cm : ℕ → ℕ → ℚ) : SqMat := fun p q =>
  ∑ m ∈ Finset.range (cfg.n_age * cfg.n_i), TlMat cfg p m * TrMat cfg cm m q

/-- Modelled from the spec: `generate_transition_block`
(`src/model/matrix_generator.py`, not under `src/`) builds the Erlang-chain
transition block of a stage chain, per spec section 4.1
(`d(stage_i)/dt = rate * stage_{i-1} - rate * stage_i`): `-rate` on the
diagonal, `rate` on the first subdiagonal, with the rate taken as the passed
parameter, consistent with `get_transition_state_eq` in src/model.py and
with the transition matrix used by `R0Generator._get_v` (src/model/r0.py). -/
def transition_block_entry (rate : ℚ) (row col : ℕ) : ℚ :=
  if row = col then -rate else if row = col + 1 then rate else 0

/-- The per-chain `(first index, stage count, rate)` table of
`ModelEq._get_trans_param_dict` (src/model/model.py lines 192-195):
`e ↦ alpha`, `i ↦ gamma`, `h ↦ gamma_h`, `ic ↦ gamma_c`, `icr ↦ gamma_cr`,
`v ↦ psi`. -/
def chainSpecs (cfg : ModelCfg) (ps : TorchParams) : List (ℕ × ℕ × ℚ) :=
  [(e0Idx cfg, cfg.n_e, ps.alpha), (i0Idx cfg, cfg.n_i, ps.gamma),
   (h0Idx cfg, cfg.n_h, ps.gamma_h), (ic0Idx cfg, cfg.n_ic, ps.gamma_c),
   (icr0Idx cfg, cfg.n_icr, ps.gamma_cr), (v0Idx cfg, cfg.n_v, ps.psi)]

/-- The transition blocks laid along the diagonal by the first loop of
`ModelEq._get_B` (src/model/model.py lines 162-167). -/
def chainBlocks (cfg : ModelCfg) (ps : TorchParams) : SqMat := fun p q =>
  if ageOf cfg p = ageOf cfg q then
    ((chainSpecs cfg ps).map (fun spec =>
      if spec.1 ≤ compOf cfg p ∧ compOf cfg p < spec.1 + spec.2.1
          ∧ spec.1 ≤ compOf cfg q ∧ compOf cfg q < spec.1 + spec.2.1 then
        transition_block_entry spec.2.2
          (compOf cfg p - spec.1) (compOf cfg q - spec.1)
      else 0)).sum
  else 0

/-- A torch block assignment `B[diag_slice(rowc), diag_slice(colc)] = value`:
the whole `n_age × n_age` sub-block is filled, the assigned vector (or
broadcast scalar) indexed by the column's age group. -/
def bwrite (cfg : ModelCfg) (rowc colc : ℕ) (value : AgeVec)
    (M : SqMat) : SqMat := fun p q =>
  if compOf cfg p = rowc ∧ compOf cfg q = colc then value (ageOf cfg q)
  else M p q

/-- `ModelEq.get_end_state` (src/model/model.py lines 200-202) returns
`f'i_{n_states - 1}'` for EVERY compartment (the compartment name is ignored
in the f-string), so all "end state" columns land in the `i` chain. -/
def end_state_col (cfg : ModelCfg) (n_states : ℕ) : ℕ :=
  i0Idx cfg + (n_states - 1)

/-- `ModelEq._get_B` (src/model/model.py lines 154-190): the transition
blocks followed by the terminal-flow block writes, in source order (later
writes overwrite earlier ones). All the "end state" columns go through
`get_end_state` and therefore land in the `i` chain. -/
def Bmtx (cfg : ModelCfg) (ps : TorchParams) : SqMat :=
  bwrite cfg (rIdx cfg) (end_state_col cfg cfg.n_i) (fun _ => (1 - ps.h) * ps.gamma)
    (bwrite cfg (dIdx cfg) (end_state_col cfg cfg.n_ic) (fun _ => ps.gamma_c * ps.mu)
      (bwrite cfg (rIdx cfg) (end_state_col cfg cfg.n_icr) (fun _ => ps.gamma_cr)
        (bwrite cfg (icr0Idx cfg) (end_state_col cfg cfg.n_ic)
            (fun _ => ps.gamma_c * (1 - ps.mu))
          (bwrite cfg (ic0Idx cfg) (end_state_col cfg cfg.n_i)
              (fun _ => ps.xi * ps.h * ps.gamma)
            (bwrite cfg (rIdx cfg) (end_state_col cfg cfg.n_h) (fun _ => ps.gamma_h)
              (bwrite cfg (h0Idx cfg) (end_state_col cfg cfg.n_i)
                  (fun _ => (1 - ps.xi) * ps.h * ps.gamma)
                (chainBlocks cfg ps)))))))

/-- The vaccination-window writes of `ModelEq.forward` (src/model/model.py
lines 115-122), executed when `t == 1`:
`B[v_0, s] = v`, `B[s, s] = -psi * v`, `B[s, v_0] = psi * v`. -/
def vacc_update (cfg : ModelCfg) (ps : TorchParams) (M : SqMat) : SqMat :=
  bwrite cfg 0 (v0Idx cfg) (fun b => ps.psi * ps.v b)
    (bwrite cfg 0 0 (fun b => -(ps.psi * ps.v b))
      (bwrite cfg (v0Idx cfg) 0 (fun b => ps.v b) M))

/-- `M @ y` for a square matrix on the flattened state. -/
def matVec (cfg : ModelCfg) (M : SqMat) (y : ℕ → ℚ) : ℕ → ℚ :=
  fun p => ∑ q ∈ Finset.range (sMtx cfg), M p q * y q

/-- `ModelEq.forward` (src/model/model.py lines 114-123): when `t == 1` the
vaccination entries are written into `B` (kept in the module state), then
`(A @ y) * (T @ y) + B @ y` is returned (elementwise product, per the
comment on lines 111-113 and spec section 4.1). The pair returned is
(derivative, state of `B` after the call). -/
def modelEq_forward (cfg : ModelCfg) (ps : TorchParams) (cm : ℕ → ℕ → ℚ)
    (t : ℚ) (y : ℕ → ℚ) (B : SqMat) : (ℕ → ℚ) × SqMat :=
  let B2 := if t = 1 then vacc_update cfg ps B else B
  (fun p => matVec cfg (Amtx cfg ps) y p * matVec cfg (Tmtx cfg cm) y p
      + matVec cfg B2 y p,
   B2)

/-- State of the torch model: `s`, `r`, `d` and the six stage chains, in
the compartment order of src/model/model.py line 16. -/
structure TState where
  s : AgeVec
  r : AgeVec
  d : AgeVec
  e : List AgeVec
  i : List AgeVec
  h : List AgeVec
  ic : List AgeVec
  icr : List AgeVec
  v : List AgeVec

/-- `transmission = ps["beta"] * i.matmul(cm)` (src/model/model.py
line 29), `i` being the sum of the infected sub-stages. -/
def t_transmission (cfg : ModelCfg) (ps : TorchParams) (cm : ℕ → ℕ → ℚ)
    (st : TState) : AgeVec :=
  fun a => ps.beta * ∑ b ∈ Finset.range cfg.n_age, vecListSum st.i b * cm b a

/-- Force of infection into `e_0`:
`susc * (s / population) * transmission` (spec section 4.1, matching
src/model.py line 91). -/
def t_infection (ps : TorchParams) (st : TState) (transmission : AgeVec) :
    AgeVec :=
  fun a => ps.susc a * (st.s a / ps.pop a) * transmission a

/-- Vaccination flow `v * rho * s / (s + r) * vacc` (spec section 4.1,
matching src/model.py line 114). -/
def t_vacc_flow (ps : TorchParams) (st : TState) (vacc : ℚ) : AgeVec :=
  fun a => ps.v a * ps.rho * st.s a / (st.s a + st.r a) * vacc

/-- Modelled from the spec: `VaccinatedModel.get_model` of the torch model
(src/model/model.py lines 21-34) delegates the compartment equations to
`EquationGenerator.evaluate_eqns` (`src/model/eqns_generator.py`, not under
`src/`). The transmission term and the vaccination gate are taken from the
present wrapper (lines 21-34); the compartment equations follow spec
section 4.1 (Erlang chains with head inflow, terminal branch flows with
fractions `h`, `xi`, `mu` and rates `gamma, gamma_c, gamma_h, gamma_cr`,
waning `psi` from the last vaccinated sub-stage back to `s`), mirroring the
numpy sibling model (src/model.py) extended with the `h` and `icr` chains. -/
def torch_get_model (cfg : ModelCfg) (ps : TorchParams) (cm : ℕ → ℕ → ℚ)
    (ts : ℚ) (st : TState) : TState :=
  { s := fun a =>
      -(t_infection ps st (t_transmission cfg ps cm st)) a
      - t_vacc_flow ps st (get_vacc_bool ts ps.t_start ps.T) a
      + ps.psi * lastVal st.v a
    r := fun a =>
      ps.gamma_h * lastVal st.h a + ps.gamma_cr * lastVal st.icr a
      + (1 - ps.h) * ps.gamma * lastVal st.i a
    d := fun a => ps.gamma_c * ps.mu * lastVal st.ic a
    e := chainDerivs ps.alpha
      (t_infection ps st (t_transmission cfg ps cm st)) st.e
    i := chainDerivs ps.gamma (fun a => ps.alpha * lastVal st.e a) st.i
    h := chainDerivs ps.gamma_h
      (fun a => (1 - ps.xi) * ps.h * ps.gamma * lastVal st.i a) st.h
    ic := chainDerivs ps.gamma_c
      (fun a => ps.xi * ps.h * ps.gamma * lastVal st.i a) st.ic
    icr := chainDerivs ps.gamma_cr
      (fun a => ps.gamma_c * (1 - ps.mu) * lastVal st.ic a) st.icr
    v := chainDerivs ps.psi
      (t_vacc_flow ps st (get_vacc_bool ts ps.t_start ps.T)) st.v }

/-- Element `k` of a stage chain (`zeroVec` when out of range). -/
def chainVal (l : List AgeVec) (k : ℕ) : AgeVec := l.getD k zeroVec

/-- The per-age vector stored at within-block compartment index `c`
(compartment order `s, e_*, i_*, h_*, ic_*, icr_*, v_*, r, d`). -/
def stateComp (cfg : ModelCfg) (st : TState) (c : ℕ) : AgeVec :=
  if c = 0 then st.s
  else if c < i0Idx cfg then chainVal st.e (c - 1)
  else if c < h0Idx cfg then chainVal st.i (c - i0Idx cfg)
  else if c < ic0Idx cfg then chainVal st.h (c - h0Idx cfg)
  else if c < icr0Idx cfg then chainVal st.ic (c - ic0Idx cfg)
  else if c < v0Idx cfg then chainVal st.icr (c - icr0Idx cfg)
  else if c < rIdx cfg then chainVal st.v (c - v0Idx cfg)
  else if c = rIdx cfg then st.r
  else st.d

/-- Flattening of a structured state into the `ModelEq` layout
(flat index = age * n_comp + compartment). -/
def flattenState (cfg : ModelCfg) (st : TState) : ℕ → ℚ :=
  fun p => stateComp cfg st (compOf cfg p) (ageOf cfg p)

/-- Sum of every entry of a flattened vector. -/
def flat_total (cfg : ModelCfg) (y : ℕ → ℚ) : ℚ :=
  ∑ p ∈ Finset.range (sMtx cfg), y p

/- ### Concrete configurations for the backend claims -/

/-- One age group, one stage per chain: `n_comp = 9`, layout
`s=0, e_0=1, i_0=2, h_0=3, ic_0=4, icr_0=5, v_0=6, r=7, d=8`. -/
def cfg1 : ModelCfg := ⟨1, 1, 1, 1, 1, 1, 1⟩

/-- One age group, two vaccinated sub-stages: `n_comp = 10`, with
`v_0 = 6`, `v_1 = 7`, `r = 8`, `d = 9`. -/
def cfg2 : ModelCfg := ⟨1, 1, 1, 1, 1, 1, 2⟩

def cm1 : ℕ → ℕ → ℚ := fun _ _ => 1

/-- Parameters isolating the vaccination flow: no transmission
(`beta = 0`), no waning (`psi = 0`), vaccination window `[5, 15)`,
`v = 2`, `rho = 1`. -/
def ps_eqv : TorchParams :=
  { beta := 0, alpha := 1, gamma := 1, gamma_h := 1, gamma_c := 1,
    gamma_cr := 1, psi := 0, xi := 1/2, h := 1/2, mu := 1/2, rho := 1,
    t_start := 5, T := 10, susc := fun _ => 1, pop := fun _ => 1,
    v := fun _ => 2 }

/-- State with one susceptible and every other compartment empty. -/
def st_eqv : TState :=
  { s := fun _ => 1, r := zeroVec, d := zeroVec, e := [zeroVec],
    i := [zeroVec], h := [zeroVec], ic := [zeroVec], icr := [zeroVec],
    v := [zeroVec] }

/-- C1 failing evaluation: at `t = 6`, inside the vaccination window
`[t_start, t_start + T) = [5, 15)`, the direct right-hand side moves
`v * rho * s / (s + r) = 2` susceptibles out of `s` (derivative `-2`), while
`ModelEq.forward` built from the same parameter set returns derivative `0`
for `s`: its vaccination entries are only written when `t == 1`, so the two
backends do not produce identical derivative vectors. -/
theorem backend_forms_disagree :
    flattenState cfg1 (torch_get_model cfg1 ps_eqv cm1 6 st_eqv) 0 = -2 ∧
    (modelEq_forward cfg1 ps_eqv cm1 6 (flattenState cfg1 st_eqv)
        (Bmtx cfg1 ps_eqv)).1 0 = 0 ∧
    ((-2 : ℚ) ≠ 0) := by
  refine ⟨?_, ?_, by norm_num⟩
  · norm_num [flattenState, stateComp, compOf, ageOf, torch_get_model,
      t_infection, t_transmission, t_vacc_flow, get_vacc_bool, lastVal,
      vecListSum, cfg1, nComp, rIdx, dIdx, v0Idx, icr0Idx, ic0Idx, h0Idx,
      i0Idx, e0Idx, ps_eqv, st_eqv, zeroVec, Finset.sum_range_one]
  · norm_num [modelEq_forward, matVec, Amtx, Tmtx, TrMat, TlMat, Bmtx,
      bwrite, chainBlocks, chainSpecs, transition_block_entry, end_state_col,
      vacc_update, transmission_rate, flattenState, stateComp, compOf, ageOf,
      chainVal, sMtx, cfg1, nComp, rIdx, dIdx, v0Idx, icr0Idx, ic0Idx,
      h0Idx, i0Idx, e0Idx, ps_eqv, st_eqv, zeroVec, cm1,
      Finset.sum_range_succ, Finset.sum_range_zero]

/-- Parameters for the mass-conservation check on `ModelEq`: `psi = 0`,
vaccination window not active at `t = 0`, no transmission, `gamma_h = 1`. -/
def ps_leak : TorchParams :=
  { beta := 0, alpha := 1, gamma := 1, gamma_h := 1, gamma_c := 1,
    gamma_cr := 1, psi := 0, xi := 1/2, h := 1/2, mu := 1/2, rho := 1,
    t_start := 5, T := 10, susc := fun _ => 1, pop := fun _ => 1,
    v := fun _ => 1 }

/-- One unit of population in `h_0` (flat index 3 in `cfg1`), everything
else empty. -/
def y_leak : ℕ → ℚ := fun p => if p = 3 then 1 else 0

/-- C3 failing evaluation: in the closed system (`psi = 0`, vaccination
indicator `0` at `t = 0`), the entries of the `ModelEq` derivative at a
state with one hospitalized individual sum to `-gamma_h = -1`, not `0`: the
`H -> R` flow is written at column `i_{n_h - 1}` (`get_end_state` ignores
its argument), so the outflow of the last `h` stage leaves the system. -/
theorem modelEq_mass_leak :
    flat_total cfg1
        ((modelEq_forward cfg1 ps_leak cm1 0 y_leak (Bmtx cfg1 ps_leak)).1)
      = -1 ∧
    ps_leak.psi = 0 ∧
    get_vacc_bool 0 ps_leak.t_start ps_leak.T = 0 ∧
    ((-1 : ℚ) ≠ 0) := by
  refine ⟨?_, by norm_num [ps_leak], ?_, by norm_num⟩
  · norm_num [flat_total, modelEq_forward, matVec, Amtx, Tmtx, TrMat, TlMat,
      Bmtx, bwrite, chainBlocks, chainSpecs, transition_block_entry,
      end_state_col, vacc_update, transmission_rate, compOf, ageOf, sMtx,
      cfg1, nComp, rIdx, dIdx, v0Idx, icr0Idx, ic0Idx, h0Idx, i0Idx, e0Idx,
      ps_leak, y_leak, cm1, Finset.sum_range_succ, Finset.sum_range_zero]
  · norm_num [get_vacc_bool, ps_leak]

/-- Parameters for the waning check: `psi = 1`, `v = 1`, no transmission,
no vaccination inflow (`rho = 0`), window `[5, 15)`. -/
def ps_wane : TorchParams :=
  { beta := 0, alpha := 1, gamma := 1, gamma_h := 1, gamma_c := 1,
    gamma_cr := 1, psi := 1, xi := 1/2, h := 1/2, mu := 1/2, rho := 0,
    t_start := 5, T := 10, susc := fun _ => 1, pop := fun _ => 1,
    v := fun _ => 1 }

/-- One unit in the FIRST vaccinated sub-stage `v_0` (flat index 6 in
`cfg2`), last sub-stage `v_1` (index 7) empty. -/
def y_wane : ℕ → ℚ := fun p => if p = 6 then 1 else 0

/-- The same state in structured form, for the direct backend. -/
def st_wane : TState :=
  { s := zeroVec, r := zeroVec, d := zeroVec, e := [zeroVec], i := [zeroVec],
    h := [zeroVec], ic := [zeroVec], icr := [zeroVec],
    v := [fun _ => 1, zeroVec] }

/-- C7 failing evaluation: with two vaccinated sub-stages (`v_0 = 1`,
`v_1 = 0`) and `psi = 1`, the direct right-hand side gives susceptible
derivative `psi * v_1 = 0`, but `ModelEq.forward` (after its `t == 1`
update, which writes `B[s, v_0] = psi * v`) gives `1`: the bilinear
backend's waning return flow is drawn from the FIRST vaccinated sub-stage,
scaled by the daily-vaccines parameter, not from the last sub-stage. -/
theorem waning_reads_first_vacc_stage :
    (modelEq_forward cfg2 ps_wane cm1 1 y_wane (Bmtx cfg2 ps_wane)).1 0 = 1 ∧
    y_wane (v0Idx cfg2 + cfg2.n_v - 1) = 0 ∧
    ps_wane.psi * y_wane (v0Idx cfg2 + cfg2.n_v - 1) = 0 ∧
    flattenState cfg2 (torch_get_model cfg2 ps_wane cm1 1 st_wane) 0 = 0 ∧
    ((1 : ℚ) ≠ 0) := by
  refine ⟨?_, ?_, ?_, ?_, by norm_num⟩
  · norm_num [modelEq_forward, matVec, Amtx, Tmtx, TrMat, TlMat, Bmtx,
      bwrite, chainBlocks, chainSpecs, transition_block_entry, end_state_col,
      vacc_update, transmission_rate, compOf, ageOf, sMtx, cfg2, nComp, rIdx,
      dIdx, v0Idx, icr0Idx, ic0Idx, h0Idx, i0Idx, e0Idx, ps_wane, y_wane,
      cm1, Finset.sum_range_succ, Finset.sum_range_zero]
  · norm_num [y_wane, v0Idx, cfg2]
  · norm_num [y_wane, v0Idx, cfg2, ps_wane]
  · norm_num [flattenState, stateComp, compOf, ageOf, torch_get_model,
      t_infection, t_transmission, t_vacc_flow, get_vacc_bool, lastVal,
      vecListSum, cfg2, nComp, rIdx, dIdx, v0Idx, icr0Idx, ic0Idx, h0Idx,
      i0Idx, e0Idx, ps_wane, st_wane, zeroVec, Finset.sum_range_one]

/-- C8 counterexample: with `t_start = 5`, `ModelEq.forward` already
mutates `B` at `t = 1` (before the vaccination window opens), and does NOT
mutate it at `t = 5 = t_start`: the mutation is tied to the hard-coded time
`1`, not to the simulation time crossing the activation threshold. -/
theorem forward_writes_at_hardcoded_time :
    (modelEq_forward cfg1 ps_wane cm1 1 (fun _ => 0) (Bmtx cfg1 ps_wane)).2
      ≠ Bmtx cfg1 ps_wane ∧
    (modelEq_forward cfg1 ps_wane cm1 5 (fun _ => 0) (Bmtx cfg1 ps_wane)).2
      = Bmtx cfg1 ps_wane ∧
    ps_wane.t_start = 5 := by
  refine ⟨?_, ?_, by norm_num [ps_wane]⟩
  · intro hcontra
    have h2 := congrFun (congrFun hcontra 6) 0
    norm_num [modelEq_forward, vacc_update, bwrite, Bmtx, chainBlocks,
      chainSpecs, transition_block_entry, end_state_col, compOf, ageOf,
      cfg1, nComp, rIdx, dIdx, v0Idx, icr0Idx, ic0Idx, h0Idx, i0Idx, e0Idx,
      ps_wane] at h2
  · simp [modelEq_forward]

/-- The three entry blocks of `B` written by the vaccination update:
`(v_0, s)`, `(s, s)` and `(s, v_0)`. -/
def isVaccEntry (cfg : ModelCfg) (p q : ℕ) : Prop :=
  (compOf cfg p = v0Idx cfg ∧ compOf cfg q = 0) ∨
  (compOf cfg p = 0 ∧ compOf cfg q = 0) ∨
  (compOf cfg p = 0 ∧ compOf cfg q = v0Idx cfg)

/-- C8 amended: `ModelEq.forward` leaves `A` and `T` untouched and mutates
`B` exactly when `t = 1` (a hard-coded time, not the `t_start` threshold);
the mutation is an idempotent fixed-value assignment (the written values
depend only on the parameter set) confined to the three vaccination entry
blocks `(v_0, s)`, `(s, s)`, `(s, v_0)` of `B`. -/
theorem forward_mutation_spec (cfg : ModelCfg) (ps : TorchParams)
    (cm : ℕ → ℕ → ℚ) (t : ℚ) (y : ℕ → ℚ) (B : SqMat) :
    (modelEq_forward cfg ps cm t y B).2
      = (if t = 1 then vacc_update cfg ps B else B) ∧
    vacc_update cfg ps (vacc_update cfg ps B) = vacc_update cfg ps B ∧
    ∀ p q, vacc_update cfg ps B p q = B p q ∨ isVaccEntry cfg p q := by
  refine ⟨rfl, ?_, ?_⟩
  · funext p q
    unfold vacc_update bwrite
    split_ifs <;> rfl
  · intro p q
    unfold vacc_update bwrite isVaccEntry
    split_ifs with h1 h2 h3
    · exact Or.inr (Or.inr (Or.inr h1))
    · exact Or.inr (Or.inr (Or.inl h2))
    · exact Or.inr (Or.inl h3)
    · exact Or.inl rfl

/- ### Joint sorting of samples and outputs
(src/sampler_vaccinated.py lines 38-48, sampler_npi.py lines 31-42) -/

/-- `results.argsort()`: the permutation of `0, ..., len(xs) - 1` that sorts
`xs` ascending (realized by a sort of the index list comparing values). -/
def argsort (xs : List ℚ) : List ℕ :=
  List.insertionSort (fun a b => xs.getD a 0 ≤ xs.getD b 0)
    (List.range xs.length)

/-- The evaluation-and-sort step of `SamplerVaccinated.run_sampling`
(src/sampler_vaccinated.py lines 38-48) and `VaccinatedSampler.run`
(sampler_npi.py lines 31-42): `results = map(get_output, lhs_table)`;
`sorted_idx = results.argsort()`; `results = results[sorted_idx]`;
`lhs_table = lhs_table[sorted_idx]` — the same permutation applied to both
tables. Returns (sorted input table, sorted output vector). -/
def run_sorting (rows : List (List ℚ)) (f : List ℚ → ℚ) :
    List (List ℚ) × List ℚ :=
  ((argsort (rows.map f)).map (fun k => rows.getD k []),
   (argsort (rows.map f)).map (fun k => (rows.map f).getD k 0))

theorem argsort_sorted (xs : List ℚ) :
    List.Sorted (fun a b : ℕ => xs.getD a 0 ≤ xs.getD b 0) (argsort xs) := by
  haveI : IsTotal ℕ (fun a b : ℕ => xs.getD a 0 ≤ xs.getD b 0) :=
    ⟨fun a b => le_total _ _⟩
  haveI : IsTrans ℕ (fun a b : ℕ => xs.getD a 0 ≤ xs.getD b 0) :=
    ⟨fun a b c hab hbc => le_trans hab hbc⟩
  exact List.sorted_insertionSort _ _

theorem argsort_perm (xs : List ℚ) :
    List.Perm (argsort xs) (List.range xs.length) :=
  List.perm_insertionSort _ _

theorem argsort_length (xs : List ℚ) : (argsort xs).length = xs.length := by
  rw [(argsort_perm xs).length_eq, List.length_range]

theorem getD_map_getD {α β : Type} (l : List α) (g : α → β) (d : β)
    (dl : α) (n : ℕ) (h : n < l.length) :
    (l.map g).getD n d = g (l.getD n dl) := by
  rw [List.getD_eq_getElem?_getD, List.getElem?_map,
    List.getElem?_eq_getElem h, List.getD_eq_getElem?_getD,
    List.getElem?_eq_getElem h]
  rfl

theorem argsort_getD_lt (xs : List ℚ) (i : ℕ) (hi : i < xs.length) :
    (argsort xs).getD i 0 < xs.length := by
  have hlen : i < (argsort xs).length := by rw [argsort_length]; exact hi
  have hmem : (argsort xs).getD i 0 ∈ argsort xs := by
    rw [List.getD_eq_getElem?_getD, List.getElem?_eq_getElem hlen]
    exact List.getElem_mem hlen
  exact List.mem_range.mp ((argsort_perm xs).mem_iff.mp hmem)

/-- C4: after the joint sort, the output vector is ascending, and for every
retained row `i` of the input table, re-evaluating that row reproduces
(exactly, in rational arithmetic) the retained output value at row `i`. -/
theorem joint_sort_invariant (rows : List (List ℚ)) (f : List ℚ → ℚ)
    (i : ℕ) (hi : i < rows.length) :
    List.Sorted (· ≤ ·) (run_sorting rows f).2 ∧
    f ((run_sorting rows f).1.getD i []) = (run_sorting rows f).2.getD i 0 := by
  constructor
  · exact List.pairwise_map.mpr (argsort_sorted (rows.map f))
  · have hlen : i < (argsort (rows.map f)).length := by
      rw [argsort_length, List.length_map]; exact hi
    have hk : (argsort (rows.map f)).getD i 0 < rows.length := by
      have h1 := argsort_getD_lt (rows.map f) i
        (by rw [List.length_map]; exact hi)
      rwa [List.length_map] at h1
    simp only [run_sorting]
    rw [getD_map_getD _ _ _ 0 i hlen, getD_map_getD _ _ _ 0 i hlen]
    exact (getD_map_getD rows f 0 [] _ hk).symm

/-- Witness for `joint_sort_invariant`: two one-column rows `[2]`, `[1]`
with the objective reading the first column, checked at row 0. -/
theorem joint_sort_invariant_witness :
    0 < ([[(2 : ℚ)], [1]] : List (List ℚ)).length ∧
    (List.Sorted (· ≤ ·)
        (run_sorting [[(2 : ℚ)], [1]] (fun row => row.getD 0 0)).2 ∧
     (fun row => row.getD 0 0)
        ((run_sorting [[(2 : ℚ)], [1]] (fun row => row.getD 0 0)).1.getD 0 [])
       = (run_sorting [[(2 : ℚ)], [1]] (fun row => row.getD 0 0)).2.getD 0 0) :=
  ⟨by norm_num,
   joint_sort_invariant [[(2 : ℚ)], [1]] (fun row => row.getD 0 0) 0
     (by norm_num)⟩

/- ### Initial values of the torch model (src/model/model.py lines 53-61) -/

/-- Modelled from the spec: `EpidemicModelBase.get_initial_values`
(`model_base.py`, not under `src/`) starts every compartment at zero before
`update_initial_values` seeds it (spec section 8: a simulation starts from a
single seeded individual). -/
def torch_zero_state (cfg : ModelCfg) : TState :=
  { s := zeroVec
    r := zeroVec
    d := zeroVec
    e := List.replicate cfg.n_e zeroVec
    i := List.replicate cfg.n_i zeroVec
    h := List.replicate cfg.n_h zeroVec
    ic := List.replicate cfg.n_ic zeroVec
    icr := List.replicate cfg.n_icr zeroVec
    v := List.replicate cfg.n_v zeroVec }

/-- `VaccinatedModel.update_initial_values` of the torch model
(src/model/model.py lines 53-61): set `iv["e_0"][2] = 1`, then
`s = population - (e + i)` where `e`, `i` sum the respective chains. -/
def update_initial_values (cfg : ModelCfg) (pop : AgeVec) (st : TState) :
    TState :=
  { st with
    e := st.e.set 0 (fun age => if age = 2 then 1 else st.e.getD 0 zeroVec age)
    s := fun a => pop a
      - (vecListSum
          (st.e.set 0
            (fun age => if age = 2 then 1 else st.e.getD 0 zeroVec age)) a
        + vecListSum st.i a) }

/-- `get_initial_values` of the torch model: the zero state updated by
`update_initial_values`. -/
def get_initial_values (cfg : ModelCfg) (pop : AgeVec) : TState :=
  update_initial_values cfg pop (torch_zero_state cfg)

/-- Sum over all compartments of a torch-model state, at one age group. -/
def t_state_age_total (st : TState) (a : ℕ) : ℚ :=
  st.s a + st.r a + st.d a + vecListSum st.e a + vecListSum st.i a
    + vecListSum st.h a + vecListSum st.ic a + vecListSum st.icr a
    + vecListSum st.v a

theorem vecListSum_replicate_zero (n : ℕ) (a : ℕ) :
    vecListSum (List.replicate n zeroVec) a = 0 := by
  induction n with
  | zero => simp [vecListSum]
  | succ m ih =>
      simp only [vecListSum, List.replicate_succ, List.map_cons,
        List.sum_cons] at ih ⊢
      simp [ih, zeroVec]

/-- C10: after the initial state is built, each age group's total over all
compartments equals its population; with at least 3 age groups the seeded
exposed individual sits in `e_0` of age group 2. -/
theorem initial_values_age_totals (cfg : ModelCfg) (pop : AgeVec) (a : ℕ)
    (hage : 2 < cfg.n_age) (hne : 0 < cfg.n_e) :
    t_state_age_total (get_initial_values cfg pop) a = pop a ∧
    chainVal (get_initial_values cfg pop).e 0 2 = 1 := by
  obtain ⟨m, hm⟩ : ∃ m, cfg.n_e = m + 1 := ⟨cfg.n_e - 1, by omega⟩
  constructor
  · simp only [t_state_age_total, get_initial_values, update_initial_values,
      torch_zero_state, vecListSum_replicate_zero, zeroVec]
    ring
  · simp only [get_initial_values, update_initial_values, torch_zero_state,
      chainVal, hm, List.replicate_succ, List.set_cons_zero]
    simp

/-- Witness for `initial_values_age_totals`: 3 age groups, one stage per
chain, population 1000 per age group, checked at age group 2. -/
theorem initial_values_age_totals_witness :
    2 < (3 : ℕ) ∧ 0 < (1 : ℕ) ∧
    (t_state_age_total
        (get_initial_values ⟨3, 1, 1, 1, 1, 1, 1⟩ (fun _ => 1000)) 2 = 1000 ∧
     chainVal (get_initial_values ⟨3, 1, 1, 1, 1, 1, 1⟩ (fun _ => 1000)).e 0 2
        = 1) :=
  ⟨by norm_num, by norm_num,
   initial_values_age_totals ⟨3, 1, 1, 1, 1, 1, 1⟩ (fun _ => 1000) 2
     (by norm_num) (by norm_num)⟩
